import Mathlib

/-!
Verification of the intent cascade and table-normalization logic of
`streamlit_app.py` (interactive survey-analysis dashboard).

The development shallowly embeds the query-answering function
`answer_query`, its helper responses, the chat-history handling and the
column-normalization functions (`normalize_columns`, `make_columns_unique`)
as executable Lean definitions, and proves the behavioural properties
stated in the specification.

Modelling conventions:
* The session table (`pandas.DataFrame`) is a list of column names plus a
  list of rows; a cell is a string, an integer, or null (`NaN`).  The two
  rating columns hold 1–5 integer ratings per the input-format contract,
  so numeric cells carry `ℤ`; fractional floats do not occur in the data
  model.
* Python string operations are modelled structurally on `List Char`:
  `str.strip` / `str.lower` / substring containment are `pyStrip` /
  `lowerStr` / `hasSub`.  `str.lower` lowercases ASCII letters (the only
  case-bearing characters appearing in the rule triggers).
* `pandas.Series.str.contains(kw, case=False, na=False)` compiles `kw` as a
  regular expression (`regex=True` is the pandas default) and runs
  `re.search` with `re.IGNORECASE` on each rendered cell.  `pyContains`
  models this with a regex interpreter for the subset consisting of literal
  characters, the `.` wildcard and the Kleene star; `rxSupported` delimits
  that subset, and every containment theorem is scoped to it.  For a
  metacharacter-free keyword the search degenerates to case-insensitive
  literal containment (`pyContains_literal`).  An invalid pattern such as
  `(` makes `re.compile` raise `re.error`, which `answer_query` does not
  catch; this error path lies outside `rxSupported` and is recorded by the
  reachability theorem of the C2 analysis.
* The digit class `\d` of `re` matches every Unicode decimal digit
  (category `Nd`), and `int()` parses such a digit run positionally;
  `isPyDigit` / `pyDigitVal` embed the `Nd` table (66 runs of ten
  consecutive code points, generated from `unicodedata`).
* Float formatting `f"{avg:.2f}"` formats the float64 mean with correct
  rounding, ties to even.  `meanToTwoDec` renders the exact rational mean
  rounded half up; for rating columns with values in `1..5`, at most
  `10^12` rows, and a mean that is not an exact two-decimal tie, the
  float64 result provably rounds to the same two decimals (the float64
  error is below `2^-51` while the distance of a non-tie mean to a tie
  boundary is at least `1/(200c)`), and the theorems about the average rule
  carry exactly those hypotheses; at an exact tie the program may render
  the even neighbour instead (e.g. mean `3.125` prints `3.12`).
* The external language model is an oracle `String → Except String String`;
  an `Except.error` models the SDK call raising an exception.
-/

namespace SurveyApp

/-- Characters stripped by Python `str.strip()` / matched by the regex
class `\s` (the whitespace characters relevant to this code base:
ASCII whitespace, NBSP and the ideographic space). -/
def isPySpace (c : Char) : Bool :=
  c = ' ' || c = '\t' || c = '\n' || c = '\r' || c = '\x0b' || c = '\x0c' ||
  c = '\u0085' || c = ' ' || c = '　'

/-- Python `str.strip()` on the character list. -/
def stripL (l : List Char) : List Char :=
  ((l.dropWhile isPySpace).reverse.dropWhile isPySpace).reverse

/-- Python `str.strip()`. -/
def pyStrip (s : String) : String := ⟨stripL s.data⟩

/-- Python `str.lower()` (ASCII letters; other characters are unchanged,
matching `Char.toLower`). -/
def lowerStr (s : String) : String := ⟨s.data.map Char.toLower⟩

/-- Whether `l₁` starts with `l₂` (pattern first). -/
def startsWithL : List Char → List Char → Bool
  | [], _ => true
  | _ :: _, [] => false
  | a :: ps, b :: ts => a = b && startsWithL ps ts

/-- Whether `p` occurs as a contiguous sublist of `t`: Python `p in t`. -/
def infixOfL : List Char → List Char → Bool
  | p, [] => p.isEmpty
  | p, c :: ts => startsWithL p (c :: ts) || infixOfL p ts

/-- Python substring test `pat in s`. -/
def hasSub (s pat : String) : Bool := infixOfL pat.data s.data

/-- Case-insensitive literal substring containment: the reading behind the
specification's "contains X" wording.  It coincides with the program's
regex search exactly when the keyword holds no regex metacharacter
(`pyContains_literal`). -/
def containsCI (hay kw : String) : Bool :=
  infixOfL (lowerStr kw).data (lowerStr hay).data

/-- The special characters of Python's `re` syntax. -/
def isRxMeta (c : Char) : Bool :=
  c = '.' || c = '^' || c = '$' || c = '*' || c = '+' || c = '?' || c = '\x7b' ||
  c = '\x7d' || c = '[' || c = ']' || c = '\\' || c = '|' || c = '(' || c = ')'

/-- An atom of the modelled regex subset: a literal character or the dot
wildcard. -/
inductive RAtom where
  | chr (c : Char)
  | dot
deriving DecidableEq, Repr

/-- Parser worker, fuel-based so the recursion is structural: fuel at least
the input length always suffices, since every step consumes at least one
character. -/
def parseRxAux : Nat → List Char → Option (List (RAtom × Bool))
  | _, [] => some []
  | 0, _ :: _ => none
  | fuel + 1, c :: rest =>
    match (if c = '.' then some RAtom.dot
           else if isRxMeta c then none else some (RAtom.chr c)) with
    | none => none
    | some a =>
      match rest with
      | '*' :: rest' => (parseRxAux fuel rest').map (fun p => (a, true) :: p)
      | _ => (parseRxAux fuel rest).map (fun p => (a, false) :: p)

/-- Parse a pattern of the modelled regex subset: a sequence of atoms, each
optionally followed by a Kleene star.  A pattern using any other
metacharacter, or a star with no preceding atom (`*x`, `a**` — which
`re.compile` rejects as invalid), parses to `none`. -/
def parseRx (l : List Char) : Option (List (RAtom × Bool)) := parseRxAux l.length l

/-- One-atom match under `re.IGNORECASE`: the dot matches everything but a
newline; a literal compares lowercased. -/
def atomMatchCI : RAtom → Char → Bool
  | .dot, c => !(c = '\n')
  | .chr a, c => a.toLower = c.toLower

/-- Match the parsed pattern against a prefix of the text, with
backtracking over each star.  Fuel-based so the kernel can evaluate it;
`pattern length + text length + 1` fuel always suffices, as every step
shrinks the pattern or the text. -/
def matchHere : Nat → List (RAtom × Bool) → List Char → Bool
  | 0, _, _ => false
  | _ + 1, [], _ => true
  | fuel + 1, (a, false) :: ps, t =>
    match t with
    | [] => false
    | c :: ts => atomMatchCI a c && matchHere fuel ps ts
  | fuel + 1, (a, true) :: ps, t =>
    matchHere fuel ps t ||
      (match t with
       | [] => false
       | c :: ts => atomMatchCI a c && matchHere fuel ((a, true) :: ps) ts)

/-- The search of `re.search`: try a match starting at every position,
including the position past the last character. -/
def rxSearch (p : List (RAtom × Bool)) : List Char → Bool
  | [] => matchHere (p.length + 1) p []
  | c :: ts =>
    matchHere (p.length + (c :: ts).length + 1) p (c :: ts) || rxSearch p ts

/-- Whether the pattern lies in the modelled (and there valid) regex
subset. -/
def rxSupported (pat : String) : Bool := (parseRx pat.data).isSome

/-- Whether the pattern is metacharacter-free, in which case regex search
is literal substring search. -/
def rxLiteral (pat : String) : Bool := pat.data.all (fun c => !(isRxMeta c))

/-- Pandas `Series.str.contains(pat, case=False, na=False)` on one rendered
cell: `re.search` of the pattern compiled with `re.IGNORECASE`
(`regex=True` is the pandas default).  Faithful on the `rxSupported`
subset, to which every containment theorem is scoped; outside it this
model falls back to literal containment, while the program may behave
differently or raise — for an invalid pattern such as `(`, `re.compile`
raises `re.error` and `answer_query` does not catch it (see the C2
reachability theorem). -/
def pyContains (hay pat : String) : Bool :=
  match parseRx pat.data with
  | some p => rxSearch p hay.data
  | none => infixOfL (lowerStr pat).data (lowerStr hay).data

/-- Little-endian decimal digits of `n`, fuel-based so that the kernel can
evaluate it. -/
def decChars : Nat → Nat → List Char
  | 0, _ => []
  | fuel + 1, n => if n = 0 then [] else Nat.digitChar (n % 10) :: decChars fuel (n / 10)

/-- Decimal rendering of a natural number (Python `str`/f-string of an int ≥ 0). -/
def natToDec (n : Nat) : String :=
  if n = 0 then "0" else ⟨(decChars n n).reverse⟩

/-- Decimal rendering of an integer. -/
def intToDec (n : ℤ) : String :=
  if n < 0 then "-" ++ natToDec n.natAbs else natToDec n.natAbs

/-- Numeric value of a decimal digit character. -/
def digitVal (c : Char) : Nat := c.toNat - 48

/-- Value of a little-endian digit-character list. -/
def digitsVal : List Char → Nat
  | [] => 0
  | c :: cs => digitVal c + 10 * digitsVal cs

theorem digitVal_digitChar {d : Nat} (hd : d < 10) :
    digitVal (Nat.digitChar d) = d := by
  interval_cases d <;> rfl

theorem digitChar_isDigit {d : Nat} (hd : d < 10) :
    (Nat.digitChar d).isDigit = true := by
  interval_cases d <;> rfl

theorem digitsVal_decChars : ∀ (fuel n : Nat), n ≤ fuel →
    digitsVal (decChars fuel n) = n := by
  intro fuel
  induction fuel with
  | zero => intro n hn; interval_cases n; rfl
  | succ f ih =>
    intro n hn
    by_cases h0 : n = 0
    · simp [decChars, h0, digitsVal]
    · have hdiv : n / 10 ≤ f := by
        have : n / 10 < n := Nat.div_lt_self (Nat.pos_of_ne_zero h0) (by omega)
        omega
      have hmod : n % 10 < 10 := Nat.mod_lt _ (by omega)
      simp only [decChars, h0, if_false, digitsVal]
      rw [digitVal_digitChar hmod, ih _ hdiv, Nat.mod_add_div]

theorem natToDec_injective : Function.Injective natToDec := by
  intro a b h
  by_cases ha : a = 0 <;> by_cases hb : b = 0
  · omega
  · exfalso
    have hd := congrArg String.data h
    simp only [natToDec, ha, hb, if_true, if_false] at hd
    have : (decChars b b).reverse = ['0'] := hd.symm
    have hb' : decChars b b = ['0'] := by
      have := congrArg List.reverse this
      simpa using this
    have := digitsVal_decChars b b le_rfl
    rw [hb'] at this
    simp [digitsVal, digitVal] at this
    omega
  · exfalso
    have hd := congrArg String.data h
    simp only [natToDec, ha, hb, if_true, if_false] at hd
    have ha' : decChars a a = ['0'] := by
      have := congrArg List.reverse hd
      simpa using this
    have := digitsVal_decChars a a le_rfl
    rw [ha'] at this
    simp [digitsVal, digitVal] at this
    omega
  · have hd := congrArg String.data h
    simp only [natToDec, ha, hb, if_false] at hd
    have : decChars a a = decChars b b := List.reverse_injective hd
    have hva := digitsVal_decChars a a le_rfl
    have hvb := digitsVal_decChars b b le_rfl
    rw [this, hvb] at hva
    exact hva.symm

/-! ## Data model -/

/-- A table cell: a string, an integer rating (the rating columns hold 1–5
integers after `pd.to_numeric`), or null (`NaN`). -/
inductive Cell where
  | str (s : String)
  | num (n : ℤ)
  | null
deriving DecidableEq, Repr

/-- The session table: column names and rows of cells (row `i`, column `j`
is `rows[i][j]` for the column at index `j` of `cols`). -/
structure DataFrame where
  cols : List String
  rows : List (List Cell)
deriving DecidableEq, Repr

/-- Python `str(cell)` as produced by `astype(str)`: null renders as the
string `nan`, an integral float rating as e.g. `5.0`. -/
def cellStr : Cell → String
  | .str s => s
  | .num n => intToDec n ++ ".0"
  | .null => "nan"

/-- The cell of row `r` in the column named `c` (`df[c]` for one row). -/
def cellAt (cols : List String) (r : List Cell) (c : String) : Cell :=
  r.getD (cols.indexOf c) .null

/-- The series `df[c]`. -/
def getCol (df : DataFrame) (c : String) : List Cell :=
  df.rows.map (fun r => cellAt df.cols r c)

/-- The numeric (non-null) entries of column `c`: what
`mean(skipna=True)` averages over. -/
def colInts (df : DataFrame) (c : String) : List ℤ :=
  (getCol df c).filterMap (fun x => match x with | .num n => some n | _ => none)

/-- Render `n / 100` with a dot and exactly two decimal digits. -/
def meanRender (n : ℤ) : String :=
  (if n < 0 then "-" else "") ++ natToDec (n.natAbs / 100) ++ "." ++
    (if n.natAbs % 100 < 10 then "0" else "") ++ natToDec (n.natAbs % 100)

/-- Python `f-string` two-decimal formatting of the mean `s / c`, computed
with integer arithmetic on the exact rational: `Int.fdiv (200*s + c) (2*c)`
is `round (100 * s / c)` (half up; see `round_mean_eq_fdiv`).  The program
formats the float64 mean, which rounds ties to even; away from exact
two-decimal ties — the hypothesis carried by the average-rule theorem —
the two renderings provably coincide (module conventions). -/
def meanToTwoDec (s : ℤ) (c : ℕ) : String :=
  meanRender (Int.fdiv (200 * s + c) (2 * c))

/-- Rendering of one cell in `DataFrame.to_string` output: a missing value
prints as `NaN` (unlike `astype(str)`, which yields `nan`), a float64
rating as e.g. `5.0`.  The int64 rendering of a never-coerced identifier
column and the column alignment of `to_string` are not modelled. -/
def showCell : Cell → String
  | .str s => s
  | .num n => intToDec n ++ ".0"
  | .null => "NaN"

/-- One row of `DataFrame.to_string(index=False)` (cells joined by
whitespace). -/
def renderRow (r : List Cell) : String := String.intercalate " " (r.map showCell)

/-- Pandas `DataFrame.to_string(index=False)`: a header line followed by one line
per row. -/
def renderTable (cols : List String) (rows : List (List Cell)) : String :=
  String.intercalate "\n" (String.intercalate " " cols :: rows.map renderRow)

/-- A column is text-typed (pandas `object`/`string` dtype) iff it holds no
numeric cell; only the `pd.to_numeric`-coerced rating columns hold numeric
cells in the session table. -/
def isTextCol (df : DataFrame) (c : String) : Bool :=
  (getCol df c).all (fun x => match x with | .num _ => false | _ => true)

/-- The columns of `df.select_dtypes` with object or string dtype. -/
def textColsOf (df : DataFrame) : List String :=
  df.cols.filter (fun c => isTextCol df c)

/-! ## Regex helpers -/

/-- The first code point of every run of ten consecutive Unicode decimal
digits (category `Nd`, the class matched by Python's `\d`), generated from
`unicodedata`: each run holds the digits `0..9` of one script in order. -/
def ndZeros : List Nat :=
  [0x30, 0x660, 0x6F0, 0x7C0, 0x966, 0x9E6, 0xA66, 0xAE6, 0xB66, 0xBE6,
   0xC66, 0xCE6, 0xD66, 0xDE6, 0xE50, 0xED0, 0xF20, 0x1040, 0x1090, 0x17E0,
   0x1810, 0x1946, 0x19D0, 0x1A80, 0x1A90, 0x1B50, 0x1BB0, 0x1C40, 0x1C50,
   0xA620, 0xA8D0, 0xA900, 0xA9D0, 0xA9F0, 0xAA50, 0xABF0, 0xFF10, 0x104A0,
   0x10D30, 0x11066, 0x110F0, 0x11136, 0x111D0, 0x112F0, 0x11450, 0x114D0,
   0x11650, 0x116C0, 0x11730, 0x118E0, 0x11950, 0x11C50, 0x11D50, 0x11DA0,
   0x16A60, 0x16AC0, 0x16B50, 0x1D7CE, 0x1D7D8, 0x1D7E2, 0x1D7EC, 0x1D7F6,
   0x1E140, 0x1E2F0, 0x1E950, 0x1FBF0]

/-- Python's `\d`: any Unicode decimal digit, e.g. the fullwidth `３` as
well as ASCII `3`. -/
def isPyDigit (c : Char) : Bool :=
  ndZeros.any (fun z => z ≤ c.toNat && c.toNat ≤ z + 9)

/-- The decimal value of a Unicode digit (its offset in its run), as
`int()` interprets each character of a captured digit run. -/
def pyDigitVal (c : Char) : Nat :=
  match ndZeros.find? (fun z => z ≤ c.toNat && c.toNat ≤ z + 9) with
  | some z => c.toNat - z
  | none => 0

/-- Python `re.search` for a digit group followed by `int(m.group(1))`: the maximal
run of Unicode decimal digits starting at the first digit of `s`, if any. -/
def digitRun : List Char → Option (List Char)
  | [] => none
  | c :: cs => if isPyDigit c then some (c :: cs.takeWhile isPyDigit) else digitRun cs

/-- The integer captured by the first digit run of `s`. -/
def firstNat (s : String) : Option Nat :=
  (digitRun s.data).map (fun ds => ds.foldl (fun a c => a * 10 + pyDigitVal c) 0)

/-- A character admitted by the capturing class `[^'\"、\s]` of the
keyword-extraction pattern. -/
def isKwChar (c : Char) : Bool :=
  !(c = '\'' || c = '"' || c = '、' || isPySpace c)

/-- A character matched by the optional opening-quote class `['\"“”]`. -/
def isOpenQuote (c : Char) : Bool :=
  c = '\'' || c = '"' || c = '“' || c = '”'

/-- Matching `['\"“”]?([^'\"、\s]+)` at a position: greedily skip one
opening quote, then capture a maximal nonempty run of keyword characters,
backtracking over the optional quote when needed. -/
def captureAt : List Char → Option String
  | [] => none
  | c :: cs =>
    if isOpenQuote c then
      let cap := cs.takeWhile isKwChar
      if cap.isEmpty then
        if isKwChar c then some ⟨(c :: cs).takeWhile isKwChar⟩ else none
      else some ⟨cap⟩
    else
      if isKwChar c then some ⟨(c :: cs).takeWhile isKwChar⟩ else none

/-- Greedy `.{0,10}`: try `k` skipped characters from `k = maxDots` down to
`0`, then the quote/capture tail. -/
def tryDots (l : List Char) : Nat → Option String
  | 0 => captureAt l
  | k + 1 =>
    match captureAt (l.drop (k + 1)) with
    | some s => some s
    | none => tryDots l k

/-- A dot does not match a newline, so at most ten leading non-newline
characters can be skipped. -/
def maxDots (l : List Char) : Nat := min 10 (l.takeWhile (fun c => c ≠ '\n')).length

/-- The tail of the pattern after a containment verb. -/
def afterVerb (l : List Char) : Option String := tryDots l (maxDots l)

/-- The containment-verb alternation `(含む|含める|含まれる)`, in pattern
order. -/
def verbs : List (List Char) := ["含む".data, "含める".data, "含まれる".data]

/-- Try the full pattern anchored at the current position. -/
def tryVerbsAt (l : List Char) : Option String :=
  verbs.findSome? (fun v => if startsWithL v l then afterVerb (l.drop v.length) else none)

/-- Leftmost `re.search`: scan start positions left to right. -/
def scanKeyword : List Char → Option String
  | [] => none
  | c :: cs =>
    match tryVerbsAt (c :: cs) with
    | some k => some k
    | none => scanKeyword cs

/-- The keyword captured by
`re.search(r"(含む|含める|含まれる).{0,10}['\"“”]?([^'\"、\s]+)['\"”]?", q)`
(the final optional closing quote never fails, so it does not affect the
capture). -/
def extractKeyword (q : String) : Option String := scanKeyword q.data

/-! ## Fixed strings and rule triggers -/

def helpMsg : String :=
  "質問が入力されていません。何か質問してください（例: カラム一覧、サンプル行、アンケートに含まれる特定語の検索など）。"

def apologyMsg : String :=
  "すみません、その質問には対応していません。'カラム一覧' や 'サンプル行'、'アンケート回答に 演習 を含む行' などの例を試してください。"

def usefulCol : String := "授業が役立ったか（５段階評価）"

def difficultCol : String := "授業が難しかったか（５段階評価）"

def ansCol : String := "アンケート回答"

/-- Rule 2 trigger: `"カラム" in q_lower or "列" in q_lower or "columns" in q_lower`. -/
def colTrigger (qL : String) : Bool :=
  hasSub qL "カラム" || hasSub qL "列" || hasSub qL "columns"

/-- Rule 3 trigger: `"サンプル" in q_lower or "先頭" in q_lower or "head" in q_lower`. -/
def sampleTrigger (qL : String) : Bool :=
  hasSub qL "サンプル" || hasSub qL "先頭" || hasSub qL "head"

/-- Rule 4 trigger: `"平均" in q_lower and ("役立" in q_lower or "役に" in q_lower or "useful" in q_lower)`. -/
def avgTrigger (qL : String) : Bool :=
  hasSub qL "平均" && (hasSub qL "役立" || hasSub qL "役に" || hasSub qL "useful")

/-- Rule 6 explicit trigger terms. -/
def llmTrigger (qL : String) : Bool :=
  hasSub qL "要約" || hasSub qL "まとめて" || hasSub qL "説明して" || hasSub qL "解説"

/-! ## External collaborator and configuration -/

/-- Sidebar configuration plus the external text-completion collaborator:
`oracle` returns the SDK response text, or `Except.error e` when the SDK
call raises exception `e`. -/
structure Ctx where
  searchColumn : String
  useGemini : Bool
  oracle : String → Except String String

def geminiFailMsg (e : String) : String :=
  "[Gemini 呼び出しに失敗しました: " ++ e ++ "]"

def geminiDisabledMsg : String :=
  "[Gemini 未有効] Gemini を有効にするにはサイドバーのチェックボックスをオンにしてください。"

/-- The SDK wrapper: its body is one big `try`, so an exception `e` becomes
the bracketed diagnostic string. -/
def call_gemini_via_vertex_sdk (oracle : String → Except String String)
    (prompt : String) : String :=
  match oracle prompt with
  | .ok t => t
  | .error e => geminiFailMsg e

/-- Unified interface: a disabled placeholder unless the Gemini checkbox is
on. -/
def call_gemini (ctx : Ctx) (prompt : String) : String :=
  if ctx.useGemini then call_gemini_via_vertex_sdk ctx.oracle prompt
  else geminiDisabledMsg

/-! ## Response handlers (one per rule) -/

def colListResp (df : DataFrame) : String :=
  "カラム一覧: " ++ String.intercalate ", " df.cols

def sampleResp (qL : String) (df : DataFrame) : String :=
  let n := (firstNat qL).getD 5
  "先頭 " ++ natToDec n ++ " 行のプレビュー:\n\n" ++ renderTable df.cols (df.rows.take n)

/-- Rule 4: the mean is `NaN` iff the column has no numeric entry, so the
`np.isnan` test is the emptiness test of `colInts`. -/
def avgResp (df : DataFrame) : String :=
  if df.cols.contains usefulCol then
    let nums := colInts df usefulCol
    if nums.isEmpty then "'" ++ usefulCol ++ "' に数値データがありません。"
    else "'" ++ usefulCol ++ "' の平均: " ++ meanToTwoDec nums.sum nums.length
  else "列 '" ++ usefulCol ++ "' が見つかりません。カラム一覧を確認してください。"

/-- The designated column: `search_column if search_column else "アンケート回答"`. -/
def effSearchColumn (ctx : Ctx) : String :=
  if ctx.searchColumn = "" then ansCol else ctx.searchColumn

/-- The rows whose designated-column rendered value the case-insensitive
regex search for `kw` matches. -/
def containsMatches (df : DataFrame) (col kw : String) : List (List Cell) :=
  df.rows.filter (fun r => pyContains (cellStr (cellAt df.cols r col)) kw)

def containsResp (ctx : Ctx) (kw : String) (df : DataFrame) : String :=
  let col := effSearchColumn ctx
  if df.cols.contains col then
    let matched := containsMatches df col kw
    if matched.isEmpty then
      "キーワード「" ++ kw ++ "」に一致する行は見つかりませんでした（列: " ++ col ++ "）。"
    else
      "キーワード「" ++ kw ++ "」に一致する " ++ natToDec matched.length ++
        " 件の行（最大20件表示）:\n\n" ++ renderTable df.cols (matched.take 20)
  else
    "検索対象の列 '" ++ col ++ "' が見つかりません。代替の列を選ぶか、カラム一覧を確認してください。"

/-- The rows matched by the OR of the per-text-column case-insensitive
containment masks. -/
def fallbackMatches (df : DataFrame) (kw : String) : List (List Cell) :=
  df.rows.filter (fun r => (textColsOf df).any (fun c => pyContains (cellStr (cellAt df.cols r c)) kw))

def fallbackResp (kw : String) (df : DataFrame) : String :=
  if (textColsOf df).isEmpty then
    "テキスト列が見つかりません。具体的にどの列を検索したいか指定してください。"
  else
    let matched := fallbackMatches df kw
    if matched.isEmpty then
      "「" ++ kw ++ "」に一致する行は見つかりませんでした（テキスト列を横断検索）。"
    else
      "テキスト列横断検索で " ++ natToDec matched.length ++
        " 件ヒット（最大20行表示）:\n\n" ++ renderTable df.cols (matched.take 20)

def systemPromptStr : String :=
  "あなたは授業アンケートデータ解析アシスタントです。以下のコンテキストを参照し、ユーザーの質問に日本語でわかりやすく答えてください。"

/-- One stats line of the prompt context: a `NaN` mean renders
as the token `nan`. -/
def meanTwoDecOrNan (df : DataFrame) (c : String) : String :=
  let nums := colInts df c
  if nums.isEmpty then "nan" else meanToTwoDec nums.sum nums.length

/-- The composed prompt of the LLM rule: system prompt, column list, up to
10 non-null free-text answers, computed averages, and the user question. -/
def buildPrompt (df : DataFrame) (q : String) : String :=
  let sampleLines :=
    if df.cols.contains ansCol then
      let texts := ((getCol df ansCol).filterMap
        (fun x => match x with | .null => none | x => some (cellStr x))).take 10
      "アンケート回答のサンプル:" ::
        (List.enumFrom 1 texts).map (fun p => natToDec p.1 ++ ". " ++ p.2)
    else []
  let stats :=
    (if df.cols.contains usefulCol then
      ["役立ったか（平均）: " ++ meanTwoDecOrNan df usefulCol] else []) ++
    (if df.cols.contains difficultCol then
      ["難しかったか（平均）: " ++ meanTwoDecOrNan df difficultCol] else [])
  let contextLines :=
    ("カラム一覧: " ++ String.intercalate ", " df.cols) ::
      sampleLines ++ [String.intercalate " ; " stats]
  systemPromptStr ++ "\n\nコンテキスト:\n" ++ String.intercalate "\n" contextLines ++
    "\n\nユーザーの質問: " ++ q

def llmResp (ctx : Ctx) (q : String) (df : DataFrame) : String :=
  call_gemini ctx (buildPrompt df q)

/-! ## The intent cascade -/

/-- The cascade `answer_query(query, df, use_llm)`.  The returned pair is the response
string together with the table as left behind by the call: no branch
performs an in-place table operation, which the frame theorem makes
explicit. -/
def answer_query (ctx : Ctx) (query : String) (df : DataFrame) (use_llm : Bool) :
    String × DataFrame :=
  let q := pyStrip query
  if q = "" then (helpMsg, df)
  else
    let qL := lowerStr q
    if colTrigger qL then (colListResp df, df)
    else if sampleTrigger qL then (sampleResp qL df, df)
    else if avgTrigger qL then (avgResp df, df)
    else
      match extractKeyword q with
      | some kw => (containsResp ctx kw df, df)
      | none =>
        if use_llm || llmTrigger qL then (llmResp ctx q df, df)
        else
          let keyword := pyStrip q
          if 1 ≤ keyword.length then (fallbackResp keyword df, df)
          else (apologyMsg, df)

/-! ## Chat history -/

/-- The session chat history: a list of `(role, text)` entries. -/
structure ChatState where
  history : List (String × String)
deriving Repr

/-- The submission handler: on a truthy (nonempty) input, append the
`("user", question)` and `("bot", response)` entries. -/
def submitQuery (ctx : Ctx) (df : DataFrame) (st : ChatState) (input : String) :
    ChatState :=
  if input = "" then st
  else
    let uq := pyStrip input
    { history := st.history ++
        [("user", uq), ("bot", (answer_query ctx uq df ctx.useGemini).1)] }

/-- The chat panel replays `chat_history[::-1]`: most recent first. -/
def displayHistory (st : ChatState) : List (String × String) := st.history.reverse

/-! ## Column normalization -/

/-- One header of `normalize_columns`: fuzzy-map the header text to a
canonical field name via substring checks (`c_norm` is the header with
whitespace removed, lowercased). -/
def normalizeOne (c : String) : String :=
  let cn := lowerStr ⟨c.data.filter (fun ch => !(isPySpace ch))⟩
  if hasSub c "番号" || cn = "id" || cn = "number" then "番号"
  else if hasSub c "学生" || hasSub cn "student" then "学生番号"
  else if hasSub c "アンケート" || hasSub cn "answer" || hasSub cn "comment" then ansCol
  else if hasSub c "役立" || hasSub cn "help" then usefulCol
  else if hasSub c "難し" || hasSub cn "difficult" then difficultCol
  else if hasSub c "日時" || hasSub cn "date" then "回答日時"
  else c

/-- The rename of all headers, as `df.rename(columns=col_map)` does. -/
def normalize_columns (cols : List String) : List String := cols.map normalizeOne

/-- The disambiguated name `f"{c}({j})"`. -/
def mkName (c : String) (j : Nat) : String := c ++ "(" ++ natToDec j ++ ")"

/-- Dictionary lookup in the `seen` association list. -/
def lookupSeen : List (String × Nat) → String → Option Nat
  | [], _ => none
  | (k, v) :: rest, x => if k = x then some v else lookupSeen rest x

/-- Dictionary write `seen[k] = v`. -/
def updateSeen : List (String × Nat) → String → Nat → List (String × Nat)
  | [], k, v => [(k, v)]
  | (k', v') :: rest, k, v =>
    if k' = k then (k, v) :: rest else (k', v') :: updateSeen rest k v

/-- The `while new_name in seen` loop: starting at counter `j`, return the
first `j' ≥ j` with `f"{c}({j'})"` unused.  `seen.length + 1` probes always
suffice (`findFresh_spec`/`exists_fresh_lt`), so the fuel never runs out. -/
def findFresh (seen : List (String × Nat)) (c : String) : Nat → Nat → Nat
  | 0, j => j
  | fuel + 1, j =>
    if (lookupSeen seen (mkName c j)).isSome then findFresh seen c fuel (j + 1) else j

/-- One iteration of the `make_columns_unique` loop body. -/
def muStep (seen : List (String × Nat)) (acc : List String) (c : String) :
    List (String × Nat) × List String :=
  match lookupSeen seen c with
  | none => (updateSeen seen c 1, acc ++ [c])
  | some v =>
    let j := findFresh seen c (seen.length + 1) v
    (updateSeen (updateSeen seen c (j + 1)) (mkName c j) 1, acc ++ [mkName c j])

/-- The function `make_columns_unique`: disambiguate duplicate headers by appending
`(1)`, `(2)`, … . -/
def make_columns_unique (cols : List String) : List String :=
  (cols.foldl (fun p c => muStep p.1 p.2 c) ([], [])).2

/-! ## The ordered rule list -/

/-- The eight rules of the cascade, in source order. -/
inductive Rule where
  | emptyQ | colList | sample | average | containsKw | llmDelegate | fallback | apology
deriving DecidableEq, Repr

def ruleOrder : List Rule :=
  [.emptyQ, .colList, .sample, .average, .containsKw, .llmDelegate, .fallback, .apology]

def ruleIdx : Rule → Nat
  | .emptyQ => 0
  | .colList => 1
  | .sample => 2
  | .average => 3
  | .containsKw => 4
  | .llmDelegate => 5
  | .fallback => 6
  | .apology => 7

/-- The applicability predicate of each rule, evaluated on the raw query
exactly as the corresponding guard of `answer_query` evaluates it. -/
def rulePred (r : Rule) (query : String) (use_llm : Bool) : Prop :=
  match r with
  | .emptyQ => pyStrip query = ""
  | .colList => colTrigger (lowerStr (pyStrip query)) = true
  | .sample => sampleTrigger (lowerStr (pyStrip query)) = true
  | .average => avgTrigger (lowerStr (pyStrip query)) = true
  | .containsKw => (extractKeyword (pyStrip query)).isSome = true
  | .llmDelegate => (use_llm || llmTrigger (lowerStr (pyStrip query))) = true
  | .fallback => 1 ≤ (pyStrip (pyStrip query)).length
  | .apology => True

instance rulePredDecidable (r : Rule) (query : String) (use_llm : Bool) :
    Decidable (rulePred r query use_llm) := by
  cases r <;> simp only [rulePred] <;> infer_instance

/-- The handler of each rule. -/
def ruleResp (ctx : Ctx) (r : Rule) (query : String) (df : DataFrame) : String :=
  match r with
  | .emptyQ => helpMsg
  | .colList => colListResp df
  | .sample => sampleResp (lowerStr (pyStrip query)) df
  | .average => avgResp df
  | .containsKw =>
    match extractKeyword (pyStrip query) with
    | some kw => containsResp ctx kw df
    | none => apologyMsg
  | .llmDelegate => llmResp ctx (pyStrip query) df
  | .fallback => fallbackResp (pyStrip (pyStrip query)) df
  | .apology => apologyMsg

/-- The first applicable rule in source order (the final rule is always
applicable, so `find?` always succeeds). -/
def firstRule (query : String) (use_llm : Bool) : Rule :=
  (ruleOrder.find? (fun r => decide (rulePred r query use_llm))).getD .apology

/-! ## Concrete fixtures used by the closed witness theorems -/

/-- An external collaborator whose every call fails. -/
def wOracle : String → Except String String := fun _ => .error "network unavailable"

/-- Gemini disabled, designated search column `アンケート回答`. -/
def wctx : Ctx := ⟨ansCol, false, wOracle⟩

/-- Gemini enabled but the SDK call always raises. -/
def wctxG : Ctx := ⟨ansCol, true, wOracle⟩

/-- A small session table shaped like the sample CSV after normalization
and type coercion. -/
def wdf : DataFrame :=
  ⟨["番号", ansCol, usefulCol],
   [[.num 1, .str "xxABCyy", .num 5],
    [.num 2, .str "zzz", .num 4],
    [.num 3, .str "abc!", .null],
    [.null, .null, .null]]⟩

/-- A table whose usefulness column has ten ratings with mean `4.1`. -/
def wdf10 : DataFrame :=
  ⟨["番号", ansCol, usefulCol],
   (List.range 10).map (fun i =>
     [.num (i + 1 : ℤ), .str "回答", .num (if i = 0 then 5 else 4)])⟩

/-! ## Helper lemmas -/

theorem string_eq_of_data {s t : String} (h : s.data = t.data) : s = t := by
  cases s; cases t; exact congrArg String.mk h

theorem data_append (s t : String) : (s ++ t).data = s.data ++ t.data := rfl

theorem data_mk (l : List Char) : (String.mk l).data = l := rfl

theorem dropWhile_head_false {α} (p : α → Bool) :
    ∀ (l : List α) (c : α), (l.dropWhile p).head? = some c → p c = false := by
  intro l
  induction l with
  | nil => intro c h; simp at h
  | cons a l ih =>
    intro c h
    by_cases hp : p a
    · rw [List.dropWhile_cons, if_pos hp] at h
      exact ih c h
    · rw [List.dropWhile_cons, if_neg hp] at h
      simp at h
      subst h
      exact Bool.eq_false_iff.mpr hp

theorem dropWhile_eq_self_of_head {α} (p : α → Bool) (l : List α)
    (h : ∀ c, l.head? = some c → p c = false) : l.dropWhile p = l := by
  cases l with
  | nil => rfl
  | cons a l =>
    rw [List.dropWhile_cons, if_neg]
    simp [h a rfl]

theorem stripL_head (l : List Char) :
    ∀ c, (stripL l).head? = some c → isPySpace c = false := by
  intro c hc
  unfold stripL at hc
  rw [List.head?_reverse] at hc
  rcases hB : (l.dropWhile isPySpace).reverse.dropWhile isPySpace with _ | ⟨b, bs⟩
  · rw [hB] at hc; simp at hc
  · have hsplit := List.takeWhile_append_dropWhile (p := isPySpace)
      (l := (l.dropWhile isPySpace).reverse)
    rw [hB] at hc hsplit
    have hne : (b :: bs : List Char) ≠ [] := by simp
    have h1 : (b :: bs).getLast? = ((l.dropWhile isPySpace).reverse).getLast? := by
      conv_rhs => rw [← hsplit]
      exact (List.getLast?_append_of_ne_nil _ hne).symm
    rw [h1, List.getLast?_reverse] at hc
    exact dropWhile_head_false _ _ _ hc

theorem stripL_getLast (l : List Char) :
    ∀ c, (stripL l).getLast? = some c → isPySpace c = false := by
  intro c hc
  unfold stripL at hc
  rw [List.getLast?_reverse] at hc
  exact dropWhile_head_false _ _ _ hc

theorem stripL_idem (l : List Char) : stripL (stripL l) = stripL l := by
  have h1 : (stripL l).dropWhile isPySpace = stripL l :=
    dropWhile_eq_self_of_head _ _ (stripL_head l)
  have h2 : (stripL l).reverse.dropWhile isPySpace = (stripL l).reverse := by
    apply dropWhile_eq_self_of_head
    intro c hc
    rw [List.head?_reverse] at hc
    exact stripL_getLast l c hc
  show ((((stripL l).dropWhile isPySpace).reverse).dropWhile isPySpace).reverse = stripL l
  rw [h1, h2, List.reverse_reverse]

theorem pyStrip_idem (s : String) : pyStrip (pyStrip s) = pyStrip s := by
  unfold pyStrip
  exact string_eq_of_data (by simpa using stripL_idem s.data)

theorem length_pos_of_ne_empty {s : String} (h : s ≠ "") : 1 ≤ s.length := by
  rcases hd : s.data with _ | ⟨c, cs⟩
  · exact absurd (string_eq_of_data (by simp [hd])) h
  · show 1 ≤ s.data.length
    simp [hd]

theorem parseRxAux_literal : ∀ (fuel : Nat) (l : List Char), l.length ≤ fuel →
    l.all (fun c => !(isRxMeta c)) = true →
    parseRxAux fuel l = some (l.map (fun c => (RAtom.chr c, false))) := by
  intro fuel
  induction fuel with
  | zero =>
    intro l hl _
    rcases l with _ | ⟨c, rest⟩
    · rfl
    · simp at hl
  | succ f ih =>
    intro l hl hall
    rcases l with _ | ⟨c, rest⟩
    · rfl
    · simp only [List.all_cons, Bool.and_eq_true] at hall
      obtain ⟨hc, hrest⟩ := hall
      have hcm : isRxMeta c = false := by simpa using hc
      have hcdot : ¬ c = '.' := by
        intro he
        subst he
        simp [isRxMeta] at hcm
      simp only [parseRxAux, hcdot, if_false, hcm, Bool.false_eq_true]
      rcases rest with _ | ⟨r, rs⟩
      · simp [parseRxAux]
      · have hr : ¬ r = '*' := by
          intro he
          subst he
          simp [List.all_cons, isRxMeta] at hrest
        have hlen : (r :: rs).length ≤ f := by simp at hl ⊢; omega
        split
        · rename_i heq
          rw [List.cons.injEq] at heq
          exact absurd heq.1 hr
        · rw [ih (r :: rs) hlen hrest]
          rfl

theorem parseRx_literal (l : List Char) (hall : l.all (fun c => !(isRxMeta c)) = true) :
    parseRx l = some (l.map (fun c => (RAtom.chr c, false))) :=
  parseRxAux_literal l.length l le_rfl hall

theorem matchHere_literal : ∀ (ps t : List Char) (fuel : Nat),
    ps.length + t.length < fuel →
    matchHere fuel (ps.map (fun c => (RAtom.chr c, false))) t =
      startsWithL (ps.map Char.toLower) (t.map Char.toLower) := by
  intro ps
  induction ps with
  | nil =>
    intro t fuel hf
    rcases fuel with _ | f
    · omega
    · rfl
  | cons p ps ih =>
    intro t fuel hf
    rcases fuel with _ | f
    · omega
    · rcases t with _ | ⟨c, ts⟩
      · rfl
      · simp only [List.map_cons, matchHere, atomMatchCI, startsWithL]
        rw [ih ts f (by simp at hf ⊢; omega)]

theorem rxSearch_literal : ∀ (ps t : List Char),
    rxSearch (ps.map (fun c => (RAtom.chr c, false))) t =
      infixOfL (ps.map Char.toLower) (t.map Char.toLower) := by
  intro ps t
  induction t with
  | nil =>
    rcases ps with _ | ⟨p, ps'⟩
    · rfl
    · rfl
  | cons c ts ih =>
    simp only [rxSearch, List.map_cons, infixOfL]
    rw [matchHere_literal ps (c :: ts) _ (by simp), ih]
    simp

/-- For a metacharacter-free keyword, the program's regex containment is
literal case-insensitive substring containment. -/
theorem pyContains_literal (hay kw : String) (h : rxLiteral kw = true) :
    pyContains hay kw = containsCI hay kw := by
  unfold pyContains containsCI
  unfold rxLiteral at h
  rw [parseRx_literal kw.data h]
  show rxSearch _ hay.data = _
  rw [rxSearch_literal]
  rfl

/-- The table returned alongside every response is the input table: shared
frame lemma. -/
theorem answer_query_snd (ctx : Ctx) (query : String) (df : DataFrame) (u : Bool) :
    (answer_query ctx query df u).2 = df := by
  simp only [answer_query]
  repeat' split
  all_goals rfl

/-! ## Claim theorems -/

/-- C9: `answer_query` leaves the table unchanged — every branch of the
cascade returns the table it was given, with all rows, fields, and column
names identical. -/
theorem answer_query_preserves_table (ctx : Ctx) (query : String) (df : DataFrame)
    (u : Bool) :
    (answer_query ctx query df u).2.cols = df.cols ∧
    (answer_query ctx query df u).2.rows = df.rows := by
  rw [answer_query_snd]
  exact ⟨rfl, rfl⟩

/-- C6: an empty or whitespace-only query yields the fixed help string, for
every table, configuration and LLM flag. -/
theorem answer_query_empty_help (ctx : Ctx) (query : String) (df : DataFrame)
    (u : Bool) (h : pyStrip query = "") :
    (answer_query ctx query df u).1 = helpMsg := by
  simp [answer_query, h]

/-- Witness for C6: the two-space query is whitespace-only and is answered
by the help string on a concrete table with the LLM flag on and off. -/
theorem answer_query_empty_help_witness :
    pyStrip "  " = "" ∧
    (answer_query wctx "  " wdf false).1 = helpMsg ∧
    (answer_query wctxG "  " wdf true).1 = helpMsg :=
  ⟨by decide, answer_query_empty_help wctx "  " wdf false (by decide),
    answer_query_empty_help wctxG "  " wdf true (by decide)⟩

/-- C2 is a code bug: the specification's failure semantics (every branch
resolves to a string; only the external LLM call may fail, caught and
rendered inline) is contradicted by the code.  The query `(` is nonempty,
triggers none of the earlier rules, and reaches the cross-column fallback's
`str.contains("(", case=False)` call on a table with a text column; the
pattern `(` is not a valid regular expression (`rxSupported` rejects it),
so `re.compile` raises `re.error` there and nothing in `answer_query`
catches it — the exception propagates to the caller.  The conjunction
evaluates every guard of the cascade at the failing input; the final
conjunct records that the external SDK wrapper, by contrast, does catch
its failure and converts it to the bracketed diagnostic, as the claim
says. -/
theorem answer_query_invalid_regex_reachable :
    (¬ pyStrip "(" = "") ∧
    colTrigger (lowerStr (pyStrip "(")) = false ∧
    sampleTrigger (lowerStr (pyStrip "(")) = false ∧
    avgTrigger (lowerStr (pyStrip "(")) = false ∧
    extractKeyword (pyStrip "(") = none ∧
    (false || llmTrigger (lowerStr (pyStrip "("))) = false ∧
    1 ≤ (pyStrip (pyStrip "(")).length ∧
    textColsOf wdf ≠ [] ∧
    rxSupported "(" = false ∧
    rxLiteral "(" = false ∧
    call_gemini_via_vertex_sdk wOracle "prompt" =
      geminiFailMsg "network unavailable" := by
  decide

/-- C5: a query containing a sample/head trigger (and no earlier-rule
trigger) renders the first `N` rows, `N` being the first captured digit run
of the query (default 5); the number of rendered rows is `min N (row count)`. -/
theorem answer_query_sample_rule (ctx : Ctx) (query : String) (df : DataFrame)
    (u : Bool) (h0 : ¬ pyStrip query = "")
    (h1 : colTrigger (lowerStr (pyStrip query)) = false)
    (h2 : sampleTrigger (lowerStr (pyStrip query)) = true) :
    (answer_query ctx query df u).1 =
      "先頭 " ++ natToDec ((firstNat (lowerStr (pyStrip query))).getD 5) ++
        " 行のプレビュー:\n\n" ++
        renderTable df.cols
          (df.rows.take ((firstNat (lowerStr (pyStrip query))).getD 5)) ∧
    (df.rows.take ((firstNat (lowerStr (pyStrip query))).getD 5)).length =
      min ((firstNat (lowerStr (pyStrip query))).getD 5) df.rows.length := by
  refine ⟨?_, by simp⟩
  simp [answer_query, h0, h1, h2, sampleResp]

/-- Witness for C5: `サンプル 3` captures `N = 3` and renders exactly 3 of
the 4 rows of the concrete table; the fullwidth-digit query `サンプル３`
likewise captures `N = 3` (Python's digit class matches Unicode decimal
digits) and renders 3 rows. -/
theorem answer_query_sample_rule_witness :
    (¬ pyStrip "サンプル 3" = "") ∧
    colTrigger (lowerStr (pyStrip "サンプル 3")) = false ∧
    firstNat (lowerStr (pyStrip "サンプル 3")) = some 3 ∧
    ((answer_query wctx "サンプル 3" wdf false).1 =
      "先頭 " ++ natToDec ((firstNat (lowerStr (pyStrip "サンプル 3"))).getD 5) ++
        " 行のプレビュー:\n\n" ++
        renderTable wdf.cols
          (wdf.rows.take ((firstNat (lowerStr (pyStrip "サンプル 3"))).getD 5)) ∧
      (wdf.rows.take ((firstNat (lowerStr (pyStrip "サンプル 3"))).getD 5)).length =
        min ((firstNat (lowerStr (pyStrip "サンプル 3"))).getD 5) wdf.rows.length) ∧
    (wdf.rows.take ((firstNat (lowerStr (pyStrip "サンプル 3"))).getD 5)).length = 3 ∧
    firstNat (lowerStr (pyStrip "サンプル３")) = some 3 ∧
    ((answer_query wctx "サンプル３" wdf false).1 =
      "先頭 " ++ natToDec ((firstNat (lowerStr (pyStrip "サンプル３"))).getD 5) ++
        " 行のプレビュー:\n\n" ++
        renderTable wdf.cols
          (wdf.rows.take ((firstNat (lowerStr (pyStrip "サンプル３"))).getD 5)) ∧
      (wdf.rows.take ((firstNat (lowerStr (pyStrip "サンプル３"))).getD 5)).length =
        min ((firstNat (lowerStr (pyStrip "サンプル３"))).getD 5) wdf.rows.length) ∧
    (wdf.rows.take ((firstNat (lowerStr (pyStrip "サンプル３"))).getD 5)).length = 3 :=
  ⟨by decide, by decide, by decide,
    answer_query_sample_rule wctx "サンプル 3" wdf false (by decide) (by decide)
      (by decide), by decide, by decide,
    answer_query_sample_rule wctx "サンプル３" wdf false (by decide) (by decide)
      (by decide), by decide⟩

/-- C8: the chat history is append-only — a submission appends exactly the
`(user, query)` and `(bot, response)` entries after the untouched existing
history — and after submitting `Q1` then `Q2` the most-recent-first display
shows the `Q2` pair before the `Q1` pair before the prior display. -/
theorem chat_history_append_only (ctx : Ctx) (df : DataFrame) (st : ChatState)
    (input q1 q2 : String) (h : input ≠ "") (h1 : q1 ≠ "") (h2 : q2 ≠ "") :
    (submitQuery ctx df st input).history =
      st.history ++ [("user", pyStrip input),
        ("bot", (answer_query ctx (pyStrip input) df ctx.useGemini).1)] ∧
    displayHistory (submitQuery ctx df (submitQuery ctx df st q1) q2) =
      [("bot", (answer_query ctx (pyStrip q2) df ctx.useGemini).1),
       ("user", pyStrip q2),
       ("bot", (answer_query ctx (pyStrip q1) df ctx.useGemini).1),
       ("user", pyStrip q1)] ++ displayHistory st := by
  constructor
  · simp [submitQuery, h]
  · simp [submitQuery, displayHistory, h1, h2]

/-- Witness for C8: two concrete submissions on an empty history. -/
theorem chat_history_append_only_witness :
    ("カラム一覧" : String) ≠ "" ∧ ("サンプル行" : String) ≠ "" ∧
    ((submitQuery wctx wdf ⟨[]⟩ "カラム一覧").history =
      ([] : List (String × String)) ++ [("user", pyStrip "カラム一覧"),
        ("bot", (answer_query wctx (pyStrip "カラム一覧") wdf wctx.useGemini).1)] ∧
    displayHistory (submitQuery wctx wdf (submitQuery wctx wdf ⟨[]⟩ "カラム一覧") "サンプル行") =
      [("bot", (answer_query wctx (pyStrip "サンプル行") wdf wctx.useGemini).1),
       ("user", pyStrip "サンプル行"),
       ("bot", (answer_query wctx (pyStrip "カラム一覧") wdf wctx.useGemini).1),
       ("user", pyStrip "カラム一覧")] ++ displayHistory ⟨[]⟩) :=
  ⟨by decide, by decide,
    chat_history_append_only wctx wdf ⟨[]⟩ "カラム一覧" "カラム一覧" "サンプル行"
      (by decide) (by decide) (by decide)⟩

theorem rule_mem_ruleOrder (r : Rule) : r ∈ ruleOrder := by
  cases r <;> simp [ruleOrder]

/-- The first applicable rule has minimal index among applicable rules. -/
theorem firstRule_min (query : String) (u : Bool) (r : Rule)
    (hr : rulePred r query u) : ruleIdx (firstRule query u) ≤ ruleIdx r := by
  have hmem : r ∈ ruleOrder := rule_mem_ruleOrder r
  rcases hfind : ruleOrder.find? (fun x => decide (rulePred x query u)) with _ | b
  · exfalso
    have := List.find?_eq_none.mp hfind Rule.apology (rule_mem_ruleOrder _)
    simp [rulePred] at this
  · have hfr : firstRule query u = b := by simp [firstRule, hfind]
    rw [hfr]
    obtain ⟨hpb, as, bs, hdecomp, hfail⟩ := List.find?_eq_some.mp hfind
    rw [hdecomp] at hmem
    rcases List.mem_append.mp hmem with hin | hin
    · exfalso
      have := hfail r hin
      simp at this
      exact this hr
    · rcases List.mem_cons.mp hin with rfl | hin
      · exact le_rfl
      · have hpair : List.Pairwise (fun x y => ruleIdx x < ruleIdx y) ruleOrder := by
          decide
        rw [hdecomp] at hpair
        have h2 := (List.pairwise_append.mp hpair).2.1
        exact le_of_lt ((List.pairwise_cons.mp h2).1 r hin)

/-- The cascade returns the response of the first applicable rule. -/
theorem answer_query_eq_first_rule (ctx : Ctx) (query : String) (df : DataFrame)
    (u : Bool) :
    (answer_query ctx query df u).1 = ruleResp ctx (firstRule query u) query df := by
  by_cases h0 : pyStrip query = ""
  · have hfr : firstRule query u = .emptyQ := by
      simp [firstRule, ruleOrder, List.find?, rulePred, h0]
    rw [hfr]; simp [answer_query, h0, ruleResp]
  · by_cases h1 : colTrigger (lowerStr (pyStrip query)) = true
    · have hfr : firstRule query u = .colList := by
        simp [firstRule, ruleOrder, List.find?, rulePred, h0, h1]
      rw [hfr]; simp [answer_query, h0, h1, ruleResp]
    · by_cases h2 : sampleTrigger (lowerStr (pyStrip query)) = true
      · have hfr : firstRule query u = .sample := by
          simp [firstRule, ruleOrder, List.find?, rulePred, h0, h1, h2]
        rw [hfr]; simp [answer_query, h0, h1, h2, ruleResp]
      · by_cases h3 : avgTrigger (lowerStr (pyStrip query)) = true
        · have hfr : firstRule query u = .average := by
            simp [firstRule, ruleOrder, List.find?, rulePred, h0, h1, h2, h3]
          rw [hfr]; simp [answer_query, h0, h1, h2, h3, ruleResp]
        · rcases hk : extractKeyword (pyStrip query) with _ | kw
          · by_cases h5 : (u || llmTrigger (lowerStr (pyStrip query))) = true
            · have hfr : firstRule query u = .llmDelegate := by
                simp [firstRule, ruleOrder, List.find?, rulePred, h0, h1, h2, h3, hk, h5]
              rw [hfr]; simp [answer_query, h0, h1, h2, h3, hk, h5, ruleResp]
            · by_cases h6 : 1 ≤ (pyStrip (pyStrip query)).length
              · have hfr : firstRule query u = .fallback := by
                  simp [firstRule, ruleOrder, List.find?, rulePred, h0, h1, h2, h3, hk,
                    h5, h6]
                rw [hfr]; simp [answer_query, h0, h1, h2, h3, hk, h5, h6, ruleResp]
              · have hfr : firstRule query u = .apology := by
                  simp [firstRule, ruleOrder, List.find?, rulePred, h0, h1, h2, h3, hk,
                    h5, h6]
                rw [hfr]; simp [answer_query, h0, h1, h2, h3, hk, h5, h6, ruleResp]
          · have hfr : firstRule query u = .containsKw := by
              simp [firstRule, ruleOrder, List.find?, rulePred, h0, h1, h2, h3, hk]
            rw [hfr]; simp [answer_query, h0, h1, h2, h3, hk, ruleResp]

/-- C1: intent is resolved by first match in the fixed rule order — the
response always equals the handler of the first applicable rule, and that
rule's position is minimal among all applicable rules. -/
theorem answer_query_rule_priority (ctx : Ctx) (query : String) (df : DataFrame)
    (u : Bool) :
    (answer_query ctx query df u).1 = ruleResp ctx (firstRule query u) query df ∧
    ∀ r : Rule, rulePred r query u → ruleIdx (firstRule query u) ≤ ruleIdx r :=
  ⟨answer_query_eq_first_rule ctx query df u, fun r hr => firstRule_min query u r hr⟩

/-- Witness for C1: a query satisfying both the column-list rule and the
average rule is answered by the column-list rule, which appears first. -/
theorem answer_query_rule_priority_witness :
    rulePred .average "カラムと役立の平均" false ∧
    rulePred .colList "カラムと役立の平均" false ∧
    ruleIdx (firstRule "カラムと役立の平均" false) ≤ ruleIdx .average ∧
    (answer_query wctx "カラムと役立の平均" wdf false).1 =
      ruleResp wctx (firstRule "カラムと役立の平均" false) "カラムと役立の平均" wdf ∧
    firstRule "カラムと役立の平均" false = .colList :=
  ⟨by decide, by decide,
   (answer_query_rule_priority wctx "カラムと役立の平均" wdf false).2 .average (by decide),
   (answer_query_rule_priority wctx "カラムと役立の平均" wdf false).1, by decide⟩

theorem decChars_zero (fuel : Nat) : decChars fuel 0 = [] := by
  cases fuel <;> simp [decChars]

theorem decChars_single (fuel m : Nat) (h1 : 1 ≤ m) (h2 : m < 10) (h3 : m ≤ fuel) :
    decChars fuel m = [Nat.digitChar m] := by
  rcases fuel with _ | g
  · omega
  · have hm0 : ¬ m = 0 := by omega
    simp only [decChars, hm0, if_false]
    rw [Nat.mod_eq_of_lt h2, Nat.div_eq_of_lt h2, decChars_zero]

theorem natToDec_single (n : Nat) (h : n < 10) : natToDec n = ⟨[Nat.digitChar n]⟩ := by
  interval_cases n <;> rfl

theorem natToDec_double (n : Nat) (h1 : 10 ≤ n) (h2 : n < 100) :
    natToDec n = ⟨[Nat.digitChar (n / 10), Nat.digitChar (n % 10)]⟩ := by
  have h0 : ¬ n = 0 := by omega
  have hd1 : 1 ≤ n / 10 := (Nat.one_le_div_iff (by omega)).mpr h1
  have hd2 : n / 10 < 10 := (Nat.div_lt_iff_lt_mul (by omega)).mpr (by omega)
  obtain ⟨k, rfl⟩ : ∃ k, n = k + 1 := ⟨n - 1, by omega⟩
  unfold natToDec
  rw [if_neg h0]
  show String.mk (decChars (k + 1) (k + 1)).reverse = _
  simp only [decChars, Nat.succ_ne_zero, if_false]
  rw [decChars_single k ((k + 1) / 10) hd1 hd2 (by omega)]
  rfl

/-- Every formatted mean ends in a dot followed by exactly two decimal
digits. -/
theorem meanRender_shape (n : ℤ) :
    ∃ pre d1 d2, meanRender n = pre ++ "." ++ String.mk [d1, d2] ∧
      d1.isDigit = true ∧ d2.isDigit = true := by
  unfold meanRender
  by_cases h : n.natAbs % 100 < 10
  · refine ⟨(if n < 0 then "-" else "") ++ natToDec (n.natAbs / 100), '0',
      Nat.digitChar (n.natAbs % 100), ?_, rfl, digitChar_isDigit h⟩
    rw [if_pos h, natToDec_single _ h]
    apply string_eq_of_data
    have hz : ("0" : String).data = ['0'] := rfl
    simp [data_append, data_mk, hz, List.append_assoc]
  · have hlt : n.natAbs % 100 < 100 := Nat.mod_lt _ (by omega)
    refine ⟨(if n < 0 then "-" else "") ++ natToDec (n.natAbs / 100),
      Nat.digitChar (n.natAbs % 100 / 10), Nat.digitChar (n.natAbs % 100 % 10), ?_,
      digitChar_isDigit ((Nat.div_lt_iff_lt_mul (by omega)).mpr (by omega)),
      digitChar_isDigit (Nat.mod_lt _ (by omega))⟩
    rw [if_neg h, natToDec_double _ (by omega) hlt]
    apply string_eq_of_data
    have he : ("" : String).data = [] := rfl
    simp [data_append, data_mk, he, List.append_assoc]

theorem meanToTwoDec_shape (s : ℤ) (c : ℕ) :
    ∃ pre d1 d2, meanToTwoDec s c = pre ++ "." ++ String.mk [d1, d2] ∧
      d1.isDigit = true ∧ d2.isDigit = true := by
  unfold meanToTwoDec
  exact meanRender_shape _

/-- The integer formula of `meanToTwoDec` is `round` of 100 times the exact
mean. -/
theorem round_mean_eq_fdiv (s : ℤ) (c : ℕ) (hc : 0 < c) :
    round (((s : ℚ) / (c : ℚ)) * 100) = Int.fdiv (200 * s + (c : ℤ)) (2 * (c : ℤ)) := by
  have hc' : (c : ℚ) ≠ 0 := Nat.cast_ne_zero.mpr hc.ne'
  rw [round_eq, Int.fdiv_eq_ediv _ (by positivity)]
  have heq : ((s : ℚ) / (c : ℚ)) * 100 + 1 / 2 =
      ((200 * s + (c : ℤ) : ℤ) : ℚ) / ((2 * c : ℕ) : ℚ) := by
    push_cast
    field_simp
    ring
  rw [heq, Rat.floor_intCast_div_natCast]
  push_cast
  rfl

/-- C3: for an average-rule query, a present usefulness column with numeric
data yields its mean rendered with exactly two decimal digits; an absent
column yields the fixed column-not-found message naming the column; an
all-null column yields the fixed no-numeric-data message, which contains no
`nan` token.  The formatting branch is scoped to the region where rounding
the exact mean provably coincides with the program's two-decimal formatting
of the float64 mean: ratings within the documented 1–5 contract, at most
`10^12` rows, and a mean that is not an exact two-decimal tie (at a tie the
float64 path rounds to even, see the module conventions). -/
theorem answer_query_average_rule (ctx : Ctx) (query : String) (df : DataFrame)
    (u : Bool) (h0 : ¬ pyStrip query = "")
    (h1 : colTrigger (lowerStr (pyStrip query)) = false)
    (h2 : sampleTrigger (lowerStr (pyStrip query)) = false)
    (h3 : avgTrigger (lowerStr (pyStrip query)) = true) :
    (df.cols.contains usefulCol = true → colInts df usefulCol ≠ [] →
      (∀ x ∈ colInts df usefulCol, 1 ≤ x ∧ x ≤ 5) →
      ((colInts df usefulCol).length : ℤ) ≤ 1000000000000 →
      (200 * (colInts df usefulCol).sum + ((colInts df usefulCol).length : ℤ)) %
          (2 * ((colInts df usefulCol).length : ℤ)) ≠ 0 →
      (answer_query ctx query df u).1 =
        "'" ++ usefulCol ++ "' の平均: " ++
          meanToTwoDec (colInts df usefulCol).sum (colInts df usefulCol).length ∧
      Int.fdiv (200 * (colInts df usefulCol).sum + ((colInts df usefulCol).length : ℤ))
          (2 * ((colInts df usefulCol).length : ℤ)) =
        round ((((colInts df usefulCol).sum : ℚ) /
          (((colInts df usefulCol).length : ℕ) : ℚ)) * 100) ∧
      (∃ pre d1 d2,
        meanToTwoDec (colInts df usefulCol).sum (colInts df usefulCol).length =
          pre ++ "." ++ String.mk [d1, d2] ∧ d1.isDigit = true ∧ d2.isDigit = true)) ∧
    (df.cols.contains usefulCol = false →
      (answer_query ctx query df u).1 =
        "列 '" ++ usefulCol ++ "' が見つかりません。カラム一覧を確認してください。") ∧
    (df.cols.contains usefulCol = true → colInts df usefulCol = [] →
      (answer_query ctx query df u).1 =
        "'" ++ usefulCol ++ "' に数値データがありません。" ∧
      hasSub (answer_query ctx query df u).1 "nan" = false) := by
  refine ⟨?_, ?_, ?_⟩
  · intro hcol hnums _ _ _
    have hcol' : usefulCol ∈ df.cols := by simpa using hcol
    have hlen : 0 < (colInts df usefulCol).length := List.length_pos.mpr hnums
    refine ⟨?_, (round_mean_eq_fdiv _ _ hlen).symm, meanToTwoDec_shape _ _⟩
    simp [answer_query, h0, h1, h2, h3, avgResp, hcol', hnums]
  · intro hcol
    have hcol' : usefulCol ∉ df.cols := by simpa using hcol
    simp [answer_query, h0, h1, h2, h3, avgResp, hcol']
  · intro hcol hnums
    have hcol' : usefulCol ∈ df.cols := by simpa using hcol
    have hresp : (answer_query ctx query df u).1 =
        "'" ++ usefulCol ++ "' に数値データがありません。" := by
      simp [answer_query, h0, h1, h2, h3, avgResp, hcol', hnums]
    exact ⟨hresp, by rw [hresp]; decide⟩

/-- Witness for C3: on a table with ten ratings of mean `4.1`, the
average-rule query renders `4.10`. -/
theorem answer_query_average_rule_witness :
    (¬ pyStrip "役立ちの平均" = "") ∧
    colTrigger (lowerStr (pyStrip "役立ちの平均")) = false ∧
    sampleTrigger (lowerStr (pyStrip "役立ちの平均")) = false ∧
    avgTrigger (lowerStr (pyStrip "役立ちの平均")) = true ∧
    wdf10.cols.contains usefulCol = true ∧
    colInts wdf10 usefulCol ≠ [] ∧
    (colInts wdf10 usefulCol).sum = 41 ∧
    (colInts wdf10 usefulCol).length = 10 ∧
    (∀ x ∈ colInts wdf10 usefulCol, 1 ≤ x ∧ x ≤ 5) ∧
    ((colInts wdf10 usefulCol).length : ℤ) ≤ 1000000000000 ∧
    (200 * (colInts wdf10 usefulCol).sum + ((colInts wdf10 usefulCol).length : ℤ)) %
        (2 * ((colInts wdf10 usefulCol).length : ℤ)) ≠ 0 ∧
    ((answer_query wctx "役立ちの平均" wdf10 false).1 =
      "'" ++ usefulCol ++ "' の平均: " ++
        meanToTwoDec (colInts wdf10 usefulCol).sum (colInts wdf10 usefulCol).length ∧
      Int.fdiv (200 * (colInts wdf10 usefulCol).sum + ((colInts wdf10 usefulCol).length : ℤ))
          (2 * ((colInts wdf10 usefulCol).length : ℤ)) =
        round ((((colInts wdf10 usefulCol).sum : ℚ) /
          (((colInts wdf10 usefulCol).length : ℕ) : ℚ)) * 100) ∧
      (∃ pre d1 d2,
        meanToTwoDec (colInts wdf10 usefulCol).sum (colInts wdf10 usefulCol).length =
          pre ++ "." ++ String.mk [d1, d2] ∧ d1.isDigit = true ∧ d2.isDigit = true)) ∧
    meanToTwoDec 41 10 = "4.10" ∧
    (answer_query wctx "役立ちの平均" wdf10 false).1 =
      "'" ++ usefulCol ++ "' の平均: 4.10" :=
  ⟨by decide, by decide, by decide, by decide, by decide, by decide, by decide,
    by decide, by decide, by decide, by decide,
    (answer_query_average_rule wctx "役立ちの平均" wdf10 false (by decide) (by decide)
      (by decide) (by decide)).1 (by decide) (by decide) (by decide) (by decide)
      (by decide),
    by decide, by decide⟩

/-- Counterexample for C4: the phrasal pattern of the query `含む .`
captures the keyword `.`, which no cell of the designated column contains
as a literal substring — the claim therefore demands the fixed no-match
message — yet the program hands the keyword to `str.contains` as a regular
expression (`regex=True` is the pandas default), where `.` matches every
row, so the response is the four-hit listing, not the no-match message. -/
theorem contains_rule_substring_counterexample :
    extractKeyword (pyStrip "含む .") = some "." ∧
    colTrigger (lowerStr (pyStrip "含む .")) = false ∧
    sampleTrigger (lowerStr (pyStrip "含む .")) = false ∧
    avgTrigger (lowerStr (pyStrip "含む .")) = false ∧
    effSearchColumn wctx = ansCol ∧
    (wdf.rows.filter
      (fun r => containsCI (cellStr (cellAt wdf.cols r ansCol)) ".")).length = 0 ∧
    (containsMatches wdf ansCol ".").length = 4 ∧
    (answer_query wctx "含む ." wdf false).1 ≠
      "キーワード「.」に一致する行は見つかりませんでした（列: " ++ ansCol ++ "）。" := by
  decide

/-- C4 (amended): for a query whose `contains X` pattern captures keyword
`kw` (and which triggers no earlier rule), with the designated search
column present and `kw` inside the modelled regex subset: the matched rows
are those whose rendered value the case-insensitive regex search for `kw`
matches — which is exactly case-insensitive literal containment whenever
`kw` holds no regex metacharacter — and zero matches yield the fixed
no-match message, while otherwise the response reports the exact match
count and renders at most 20 matching rows. -/
theorem answer_query_contains_rule (ctx : Ctx) (query : String) (df : DataFrame)
    (u : Bool) (kw : String) (h0 : ¬ pyStrip query = "")
    (h1 : colTrigger (lowerStr (pyStrip query)) = false)
    (h2 : sampleTrigger (lowerStr (pyStrip query)) = false)
    (h3 : avgTrigger (lowerStr (pyStrip query)) = false)
    (hk : extractKeyword (pyStrip query) = some kw)
    (hcol : df.cols.contains (effSearchColumn ctx) = true)
    (_hsupp : rxSupported kw = true) :
    (rxLiteral kw = true →
      containsMatches df (effSearchColumn ctx) kw =
        df.rows.filter
          (fun r => containsCI (cellStr (cellAt df.cols r (effSearchColumn ctx))) kw)) ∧
    (containsMatches df (effSearchColumn ctx) kw = [] →
      (answer_query ctx query df u).1 =
        "キーワード「" ++ kw ++ "」に一致する行は見つかりませんでした（列: " ++
          effSearchColumn ctx ++ "）。") ∧
    (containsMatches df (effSearchColumn ctx) kw ≠ [] →
      (answer_query ctx query df u).1 =
        "キーワード「" ++ kw ++ "」に一致する " ++
          natToDec (containsMatches df (effSearchColumn ctx) kw).length ++
          " 件の行（最大20件表示）:\n\n" ++
          renderTable df.cols ((containsMatches df (effSearchColumn ctx) kw).take 20) ∧
      ((containsMatches df (effSearchColumn ctx) kw).take 20).length ≤ 20) := by
  have hcol' : effSearchColumn ctx ∈ df.cols := by simpa using hcol
  refine ⟨?_, ?_, ?_⟩
  · intro hlit
    unfold containsMatches
    exact congrArg (fun f => List.filter f df.rows)
      (funext fun r =>
        pyContains_literal (cellStr (cellAt df.cols r (effSearchColumn ctx))) kw hlit)
  · intro hm
    simp [answer_query, h0, h1, h2, h3, hk, containsResp, hcol', hm]
  · intro hm
    refine ⟨?_, ?_⟩
    · simp [answer_query, h0, h1, h2, h3, hk, containsResp, hcol', hm]
    · rw [List.length_take]
      exact min_le_left _ _

/-- Witness for C4: the captured keyword `abc` is metacharacter-free and
occurs in exactly 2 of the 4 rows of the designated column; the response
reports `2` and renders both matching rows. -/
theorem answer_query_contains_rule_witness :
    extractKeyword (pyStrip "含む0123456789abc") = some "abc" ∧
    rxSupported "abc" = true ∧
    rxLiteral "abc" = true ∧
    effSearchColumn wctx = ansCol ∧
    wdf.cols.contains ansCol = true ∧
    (containsMatches wdf ansCol "abc").length = 2 ∧
    natToDec (containsMatches wdf ansCol "abc").length = "2" ∧
    (containsMatches wdf ansCol "abc").take 20 = containsMatches wdf ansCol "abc" ∧
    (containsMatches wdf ansCol "abc" =
      wdf.rows.filter (fun r => containsCI (cellStr (cellAt wdf.cols r ansCol)) "abc")) ∧
    (containsMatches wdf (effSearchColumn wctx) "abc" ≠ [] →
      (answer_query wctx "含む0123456789abc" wdf false).1 =
        "キーワード「" ++ "abc" ++ "」に一致する " ++
          natToDec (containsMatches wdf (effSearchColumn wctx) "abc").length ++
          " 件の行（最大20件表示）:\n\n" ++
          renderTable wdf.cols
            ((containsMatches wdf (effSearchColumn wctx) "abc").take 20) ∧
      ((containsMatches wdf (effSearchColumn wctx) "abc").take 20).length ≤ 20) :=
  ⟨by decide, by decide, by decide, by decide, by decide, by decide, by decide,
    by decide, by decide,
    (answer_query_contains_rule wctx "含む0123456789abc" wdf false "abc" (by decide)
      (by decide) (by decide) (by decide) (by decide) (by decide) (by decide)).2.2⟩

/-- Counterexample for C7: the query `hello` is nonempty, triggers none of
the column-list, sample, average, `contains X`, or LLM rules, and the
cross-column fallback search finds no hit — yet the response is not the
apology string (it is the fallback no-match message): the final apology is
dead code. -/
theorem answer_query_apology_counterexample :
    (¬ pyStrip "hello" = "") ∧
    colTrigger (lowerStr (pyStrip "hello")) = false ∧
    sampleTrigger (lowerStr (pyStrip "hello")) = false ∧
    avgTrigger (lowerStr (pyStrip "hello")) = false ∧
    extractKeyword (pyStrip "hello") = none ∧
    (false || llmTrigger (lowerStr (pyStrip "hello"))) = false ∧
    fallbackMatches wdf (pyStrip (pyStrip "hello")) = [] ∧
    (answer_query wctx "hello" wdf false).1 ≠ apologyMsg := by
  decide

/-- C7 (amended): a nonempty query that triggers none of the earlier rules
is always handled by the cross-column fallback search — whose applicability
condition holds for every nonempty stripped query — so the final apology
line of `answer_query` is unreachable.  The whole stripped query is the
regex pattern of that search, so the theorem is scoped to patterns inside
the modelled regex subset (a regex-invalid query such as `(` instead makes
the program raise: see the C2 analysis). -/
theorem answer_query_unmatched_fallback (ctx : Ctx) (query : String)
    (df : DataFrame) (u : Bool) (h0 : ¬ pyStrip query = "")
    (h1 : colTrigger (lowerStr (pyStrip query)) = false)
    (h2 : sampleTrigger (lowerStr (pyStrip query)) = false)
    (h3 : avgTrigger (lowerStr (pyStrip query)) = false)
    (hk : extractKeyword (pyStrip query) = none)
    (h5 : (u || llmTrigger (lowerStr (pyStrip query))) = false)
    (_hsupp : rxSupported (pyStrip (pyStrip query)) = true) :
    (answer_query ctx query df u).1 = fallbackResp (pyStrip (pyStrip query)) df := by
  have h6 : 1 ≤ (pyStrip (pyStrip query)).length := by
    rw [pyStrip_idem]
    exact length_pos_of_ne_empty h0
  simp [answer_query, h0, h1, h2, h3, hk, h5, h6]

/-- Witness for C7 (amended): the unmatched query `hello` is answered by the
fallback handler's no-match message. -/
theorem answer_query_unmatched_fallback_witness :
    (¬ pyStrip "hello" = "") ∧
    extractKeyword (pyStrip "hello") = none ∧
    rxSupported (pyStrip (pyStrip "hello")) = true ∧
    (answer_query wctx "hello" wdf false).1 =
      fallbackResp (pyStrip (pyStrip "hello")) wdf ∧
    (answer_query wctx "hello" wdf false).1 =
      "「hello」に一致する行は見つかりませんでした（テキスト列を横断検索）。" :=
  ⟨by decide, by decide, by decide,
    answer_query_unmatched_fallback wctx "hello" wdf false (by decide) (by decide)
      (by decide) (by decide) (by decide) (by decide) (by decide),
    by decide⟩

theorem mkName_inj (c : String) {a b : Nat} (h : mkName c a = mkName c b) : a = b := by
  unfold mkName at h
  have hd := congrArg String.data h
  simp only [data_append] at hd
  have h1 := List.append_cancel_right hd
  have h2 := List.append_cancel_left h1
  exact natToDec_injective (string_eq_of_data h2)

theorem lookupSeen_updateSeen (s : List (String × Nat)) (k : String) (v : Nat)
    (x : String) : lookupSeen (updateSeen s k v) x =
      if k = x then some v else lookupSeen s x := by
  induction s with
  | nil => simp [updateSeen, lookupSeen]
  | cons p rest ih =>
    obtain ⟨k', v'⟩ := p
    by_cases hk : k' = k
    · subst hk
      by_cases hx : k' = x <;> simp [updateSeen, lookupSeen, hx]
    · by_cases hx : k = x
      · subst hx
        have hk' : ¬ k' = k := hk
        simp [updateSeen, lookupSeen, hk, hk', ih]
      · have hxk : ¬ x = k := fun h => hx h.symm
        by_cases hx' : k' = x <;>
          simp [updateSeen, lookupSeen, hk, hx, hx', hxk, ih]

theorem mem_keys_of_lookupSeen {s : List (String × Nat)} {x : String}
    (h : (lookupSeen s x).isSome = true) : x ∈ s.map Prod.fst := by
  induction s with
  | nil => simp [lookupSeen] at h
  | cons p rest ih =>
    obtain ⟨k, v⟩ := p
    by_cases hk : k = x
    · simp [hk]
    · simp only [lookupSeen, hk, if_false] at h
      simp [ih h]

theorem findFresh_spec (seen : List (String × Nat)) (c : String) :
    ∀ (fuel j : Nat), (∃ i, i < fuel ∧ lookupSeen seen (mkName c (j + i)) = none) →
      lookupSeen seen (mkName c (findFresh seen c fuel j)) = none := by
  intro fuel
  induction fuel with
  | zero =>
    rintro j ⟨i, hi, _⟩
    omega
  | succ f ih =>
    rintro j ⟨i, hi, hnone⟩
    by_cases hcur : (lookupSeen seen (mkName c j)).isSome = true
    · have hi0 : i ≠ 0 := by
        intro h
        subst h
        simp only [Nat.add_zero] at hnone
        rw [hnone] at hcur
        simp at hcur
      obtain ⟨i', rfl⟩ : ∃ i', i = i' + 1 := ⟨i - 1, by omega⟩
      have hshift : j + (i' + 1) = (j + 1) + i' := by omega
      rw [hshift] at hnone
      simp only [findFresh, hcur, if_true]
      exact ih (j + 1) ⟨i', by omega, hnone⟩
    · simp only [findFresh, hcur, if_false]
      exact Option.not_isSome_iff_eq_none.mp (by simpa using hcur)

theorem exists_fresh (seen : List (String × Nat)) (c : String) (j : Nat) :
    ∃ i, i < seen.length + 1 ∧ lookupSeen seen (mkName c (j + i)) = none := by
  by_contra hcon
  push_neg at hcon
  have hmem : ∀ i, i < seen.length + 1 → mkName c (j + i) ∈ seen.map Prod.fst := by
    intro i hi
    apply mem_keys_of_lookupSeen
    rcases hl : lookupSeen seen (mkName c (j + i)) with _ | v
    · exact absurd hl (hcon i hi)
    · simp
  have hnodup : ((List.range (seen.length + 1)).map (fun i => mkName c (j + i))).Nodup := by
    refine List.Nodup.map ?_ (List.nodup_range _)
    intro a b hab
    have := mkName_inj c hab
    omega
  have hsub : ((List.range (seen.length + 1)).map (fun i => mkName c (j + i))) ⊆
      seen.map Prod.fst := by
    intro x hx
    rw [List.mem_map] at hx
    obtain ⟨i, hi, rfl⟩ := hx
    exact hmem i (by simpa using hi)
  have hle := (hnodup.subperm hsub).length_le
  simp at hle

theorem muStep_inv (seen : List (String × Nat)) (acc : List String) (c : String)
    (hnd : acc.Nodup) (hin : ∀ x ∈ acc, (lookupSeen seen x).isSome = true) :
    ((muStep seen acc c).2).Nodup ∧
      ∀ x ∈ (muStep seen acc c).2, (lookupSeen (muStep seen acc c).1 x).isSome = true := by
  rcases hc : lookupSeen seen c with _ | v
  · have hcnot : c ∉ acc := by
      intro hmem
      have := hin c hmem
      rw [hc] at this
      simp at this
    constructor
    · simp only [muStep, hc]
      simp [List.nodup_append, hnd, hcnot]
    · intro x hx
      simp only [muStep, hc] at hx ⊢
      rw [lookupSeen_updateSeen]
      by_cases hcx : c = x
      · simp [hcx]
      · simp only [hcx, if_false]
        rcases List.mem_append.mp hx with hx' | hx'
        · exact hin x hx'
        · simp at hx'
          exact absurd hx'.symm hcx
  · have hfresh : lookupSeen seen (mkName c (findFresh seen c (seen.length + 1) v)) = none :=
      findFresh_spec seen c (seen.length + 1) v (exists_fresh seen c v)
    have hnot : mkName c (findFresh seen c (seen.length + 1) v) ∉ acc := by
      intro hmem
      have := hin _ hmem
      rw [hfresh] at this
      simp at this
    constructor
    · simp only [muStep, hc]
      simp [List.nodup_append, hnd, hnot]
    · intro x hx
      simp only [muStep, hc] at hx ⊢
      rw [lookupSeen_updateSeen, lookupSeen_updateSeen]
      by_cases h1 : mkName c (findFresh seen c (seen.length + 1) v) = x
      · simp [h1]
      · simp only [h1, if_false]
        by_cases h2 : c = x
        · simp [h2]
        · simp only [h2, if_false]
          rcases List.mem_append.mp hx with hx' | hx'
          · exact hin x hx'
          · simp at hx'
            exact absurd hx'.symm h1

theorem muFold_nodup : ∀ (cols : List String) (seen : List (String × Nat))
    (acc : List String), acc.Nodup →
    (∀ x ∈ acc, (lookupSeen seen x).isSome = true) →
    ((cols.foldl (fun p c => muStep p.1 p.2 c) (seen, acc)).2).Nodup := by
  intro cols
  induction cols with
  | nil =>
    intro seen acc h _
    simpa using h
  | cons c cs ih =>
    intro seen acc hnd hin
    have hstep := muStep_inv seen acc c hnd hin
    simpa [List.foldl_cons] using
      ih (muStep seen acc c).1 (muStep seen acc c).2 hstep.1 hstep.2

/-- C10: `make_columns_unique` always produces pairwise-distinct column
names, in particular on the output of the load-time `normalize_columns`
renaming, so every column of the session table is addressable by a unique
string key. -/
theorem make_columns_unique_nodup (cols : List String) :
    (make_columns_unique cols).Nodup ∧
    (make_columns_unique (normalize_columns cols)).Nodup :=
  ⟨muFold_nodup cols [] [] (by simp) (by simp [lookupSeen]),
   muFold_nodup (normalize_columns cols) [] [] (by simp) (by simp [lookupSeen])⟩

end SurveyApp

